import Mathlib

/-!
Verification of the `squeal-builder` SELECT builder (`src/select/mod.rs`).

The builder is a type-state pipeline: each stage struct (`Select`,
`PushColumn`, `PushValue`, `FromTable`, `PushFromTable`, `PushWhereClause`,
`SqlCommand`) owns a growing command string and a generic argument
collection, and each transition consumes its receiver and returns the
next stage, appending text after a fallible capacity reservation
(`String::try_reserve`).

Embedding conventions:
* Rust `String`s are modelled as `List Char`, one element per byte of the
  UTF-8 text (`str::len` becomes `List.length`; all fixed separators are
  ASCII so the correspondence is exact on them).
* `String::try_reserve` is modelled by `tryReserve`, parameterised over an
  allocator oracle `alloc : Nat → Bool`; a request whose resulting
  capacity would exceed `isize::MAX` always fails (capacity overflow),
  mirroring `TryReserveErrorKind::CapacityOverflow` on a 64-bit target.
* `usize` arithmetic that can overflow is modelled with wrapping
  (release-mode semantics), made explicit via `% usizeWrap`.
* The generic argument collection (`ArgumentBuffer` trait) and the types
  `SqlError`, `SqlCommand`, `Columns`, `format_u32_base10` live outside
  `src/`; they are modelled from the spec where noted.
-/

/-- `isize::MAX` on a 64-bit target, i.e. 2^63 - 1. -/
def isizeMax : Nat := 9223372036854775807

/-- 2^64, the modulus of wrapping `usize` arithmetic on a 64-bit target. -/
def usizeWrap : Nat := 18446744073709551616

/-- Model of `String::try_reserve(additional)` on a buffer of length
`len`: the new required capacity is `len + additional`; reservation fails
on capacity overflow (beyond `isize::MAX`) or when the allocator oracle
refuses the request. -/
def tryReserve (alloc : Nat → Bool) (len additional : Nat) : Bool :=
  decide (len + additional ≤ isizeMax) && alloc (len + additional)

/-- Modelled from the spec (§7, error taxonomy): the error type
`SqlError<EArg>` of `src/error.rs` (not under `src/`): a failed text-buffer
reservation (`OutOfMemory`), an empty required list (`ArgumentNotFound`),
or an error of the caller-supplied argument collection (`Argument`). -/
inductive SqlError (E : Type) where
  | OutOfMemory
  | ArgumentNotFound
  | Argument (error : E)
  deriving Repr, DecidableEq

/-- Modelled from the spec (§1, §9, excluded collaborator): the decimal
formatter `format_u32_base10` of `src/format_num.rs` (not under `src/`):
the base-10 digits, without leading zeros, of a `u32` value (the `% 2^32`
records the `u32` domain of the argument-collection count). -/
def format_u32_base10 (n : Nat) : List Char :=
  Nat.toDigits 10 (n % 4294967296)

/-- `Tables` (src/select/macros.rs:1): an opaque pre-assembled static
table-list fragment wrapping borrowed text. -/
structure Tables where
  text : List Char
  deriving Repr, DecidableEq

/-- Modelled from the spec (§3, static fragment handle): the `Columns`
type (its definition is not under `src/`; `src/select/mod.rs` uses it
only through its single text field `columns.0`): an opaque pre-assembled
static column-list fragment wrapping borrowed text, exactly like
`Tables`. -/
structure Columns where
  text : List Char
  deriving Repr, DecidableEq

/-- Modelled from the spec (§4.2, argument collection contract): one
concrete implementation of the `ArgumentBuffer<T>` trait (not under
`src/`) together with the allocator oracle used by `try_reserve`:
`push` accepts a value and returns the next collection state or a
caller-defined error, `count` reports the current number of values. -/
structure Env (T E σ : Type) where
  alloc : Nat → Bool
  push : σ → T → Except E σ
  count : σ → Nat

/-- Stage `Select` (src/select/mod.rs:24): the start stage, holding the
initial keyword in `command`. -/
structure Select (σ : Type) where
  command : List Char
  arguments : σ
  deriving Repr, DecidableEq

/-- Stage `SelectColumn` (src/select/mod.rs:156): internal column-list
stage every `Select` column method retags into. -/
structure SelectColumn (σ : Type) where
  command : List Char
  arguments : σ
  deriving Repr, DecidableEq

/-- Stage `PushValue` (src/select/mod.rs:234): ≥ 1 value written. -/
structure PushValue (σ : Type) where
  command : List Char
  arguments : σ
  deriving Repr, DecidableEq

/-- Stage `PushColumn` (src/select/mod.rs:261): ≥ 1 column written. -/
structure PushColumn (σ : Type) where
  command : List Char
  arguments : σ
  deriving Repr, DecidableEq

/-- Stage `FromTable` (src/select/mod.rs:290): column list finished, no
table written yet (`FromOpen`). -/
structure FromTable (σ : Type) where
  command : List Char
  arguments : σ
  deriving Repr, DecidableEq

/-- Stage `PushFromTable` (src/select/mod.rs:323): ≥ 1 table written. -/
structure PushFromTable (σ : Type) where
  command : List Char
  arguments : σ
  deriving Repr, DecidableEq

/-- Stage `PushWhereClause` (src/select/mod.rs:347). -/
structure PushWhereClause (σ : Type) where
  command : List Char
  arguments : σ
  deriving Repr, DecidableEq

/-- Modelled from the spec (§6, produced value): the terminal
`SqlCommand<Arg>` (not under `src/`): the finished pairing of rendered
text and argument collection, produced by `map_intermediate_sql!`. -/
structure SqlCommand (σ : Type) where
  command : List Char
  arguments : σ
  deriving Repr, DecidableEq

/-- `Select::new` (src/select/mod.rs:33): command starts as `SELECT`. -/
def Select.new (arguments : σ) : Select σ :=
  ⟨"SELECT".data, arguments⟩

/-- `Select::all` (src/select/mod.rs:45). -/
def Select.all (arguments : σ) : Select σ :=
  ⟨"SELECT ALL".data, arguments⟩

/-- `Select::distinct` (src/select/mod.rs:55). -/
def Select.distinct (arguments : σ) : Select σ :=
  ⟨"SELECT DISTINCT".data, arguments⟩

/-- The `additional` argument of the `try_reserve` call in
`SelectColumn::column` (src/select/mod.rs:174): `column.len() + 1`. -/
def columnReserve (column : List Char) : Nat :=
  column.length + 1

/-- `SelectColumn::column` (src/select/mod.rs:173-178): reserve, append
`' '` then the column, and retag into `PushColumn`. -/
def SelectColumn.column (alloc : Nat → Bool) (self : SelectColumn σ)
    (column : List Char) : Except (SqlError E) (PushColumn σ) :=
  if tryReserve alloc self.command.length (columnReserve column) then
    Except.ok ⟨self.command ++ " ".data ++ column, self.arguments⟩
  else
    Except.error SqlError.OutOfMemory

/-- The `additional` argument of the `try_reserve` call in
`SelectColumn::column_as` (src/select/mod.rs:196):
`column.len() + alias.len() + 5`. -/
def columnAsReserve (column al : List Char) : Nat :=
  column.length + al.length + 5

/-- `SelectColumn::column_as` (src/select/mod.rs:191-202): reserve, append
`' '`, the column, `" AS "`, the alias, and retag into `PushColumn`. -/
def SelectColumn.column_as (alloc : Nat → Bool) (self : SelectColumn σ)
    (column al : List Char) : Except (SqlError E) (PushColumn σ) :=
  if tryReserve alloc self.command.length (columnAsReserve column al) then
    Except.ok ⟨self.command ++ " ".data ++ column ++ " AS ".data ++ al,
      self.arguments⟩
  else
    Except.error SqlError.OutOfMemory

/-- The `total_length` computation of `SelectColumn::columns`
(src/select/mod.rs:206): `columns.iter().map(|s| s.len() + 2).sum() - 1`
in `usize` arithmetic; on the empty slice the subtraction `0 - 1`
underflows (panic in debug builds; here the release-mode wrap to
`usize::MAX` is modelled explicitly). -/
def columnsReserve (columns : List (List Char)) : Nat :=
  ((columns.map (fun s => s.length + 2)).sum + usizeWrap - 1) % usizeWrap

/-- `SelectColumn::columns` (src/select/mod.rs:204-219): reserve the
computed total, then require a first column (else `ArgumentNotFound`),
append `' '` + first, then `", "` + column for every later column. -/
def SelectColumn.columns (alloc : Nat → Bool) (self : SelectColumn σ)
    (columns : List (List Char)) : Except (SqlError E) (PushColumn σ) :=
  if tryReserve alloc self.command.length (columnsReserve columns) then
    match columns with
    | [] => Except.error SqlError.ArgumentNotFound
    | first :: rest =>
      Except.ok ⟨self.command ++ " ".data ++ first ++
        (rest.map (fun c => ", ".data ++ c)).flatten, self.arguments⟩
  else
    Except.error SqlError.OutOfMemory

/-- The `additional` argument of the `try_reserve` call in
`SelectColumn::static_columns` (src/select/mod.rs:225): `columns.0.len()`
— note: not `+ 1`, although a `' '` is appended as well. -/
def staticColumnsReserve (columns : Columns) : Nat :=
  columns.text.length

/-- `SelectColumn::static_columns` (src/select/mod.rs:221-231): reserve
the fragment length, append `' '` then the fragment verbatim, and retag
into `FromTable`. No `FROM` keyword is written here. -/
def SelectColumn.static_columns (alloc : Nat → Bool) (self : SelectColumn σ)
    (columns : Columns) : Except (SqlError E) (FromTable σ) :=
  if tryReserve alloc self.command.length (staticColumnsReserve columns) then
    Except.ok ⟨self.command ++ " ".data ++ columns.text, self.arguments⟩
  else
    Except.error SqlError.OutOfMemory

/-- `Select::column` (src/select/mod.rs:73-76): retag into `SelectColumn`
and delegate. -/
def Select.column (alloc : Nat → Bool) (self : Select σ)
    (column : List Char) : Except (SqlError E) (PushColumn σ) :=
  SelectColumn.column alloc ⟨self.command, self.arguments⟩ column

/-- `Select::column_as` (src/select/mod.rs:89-96). -/
def Select.column_as (alloc : Nat → Bool) (self : Select σ)
    (column al : List Char) : Except (SqlError E) (PushColumn σ) :=
  SelectColumn.column_as alloc ⟨self.command, self.arguments⟩ column al

/-- `Select::columns` (src/select/mod.rs:98-101). -/
def Select.columns (alloc : Nat → Bool) (self : Select σ)
    (columns : List (List Char)) : Except (SqlError E) (PushColumn σ) :=
  SelectColumn.columns alloc ⟨self.command, self.arguments⟩ columns

/-- `Select::static_columns` (src/select/mod.rs:103-106). -/
def Select.static_columns (alloc : Nat → Bool) (self : Select σ)
    (columns : Columns) : Except (SqlError E) (FromTable σ) :=
  SelectColumn.static_columns alloc ⟨self.command, self.arguments⟩ columns

/-- `Select::value` (src/select/mod.rs:108-123): push the value into the
argument collection (propagating its error), then append `" $"` and the
decimal rendering of the new count. No `try_reserve` call occurs. -/
def Select.value (env : Env T E σ) (self : Select σ) (v : T) :
    Except (SqlError E) (PushValue σ) :=
  match env.push self.arguments v with
  | Except.error e => Except.error (SqlError.Argument e)
  | Except.ok args =>
    Except.ok ⟨self.command ++ " $".data ++ format_u32_base10 (env.count args),
      args⟩

/-- The loop of `Select::values` (src/select/mod.rs:142-148): for each
remaining value, push it, then append `", $"` and the decimal rendering
of the new count. -/
def valuesLoop (env : Env T E σ) (command : List Char) (args : σ)
    (values : List T) : Except (SqlError E) (SqlCommand σ) :=
  match values with
  | [] => Except.ok ⟨command, args⟩
  | v :: rest =>
    match env.push args v with
    | Except.error e => Except.error (SqlError.Argument e)
    | Except.ok args1 =>
      valuesLoop env
        (command ++ ", $".data ++ format_u32_base10 (env.count args1))
        args1 rest

/-- `Select::values` (src/select/mod.rs:125-151): require a first value
(else `ArgumentNotFound`), push it, append `" $"` + count, then loop over
the remaining values. No `try_reserve` call occurs. -/
def Select.values (env : Env T E σ) (self : Select σ) (values : List T) :
    Except (SqlError E) (SqlCommand σ) :=
  match values with
  | [] => Except.error SqlError.ArgumentNotFound
  | first :: rest =>
    match env.push self.arguments first with
    | Except.error e => Except.error (SqlError.Argument e)
    | Except.ok args1 =>
      valuesLoop env
        (self.command ++ " $".data ++ format_u32_base10 (env.count args1))
        args1 rest

/-- `PushValue::value` (src/select/mod.rs:240-252): push the value, then
append `", $"` and the decimal rendering of the new count. No
`try_reserve` call occurs. -/
def PushValue.value (env : Env T E σ) (self : PushValue σ) (v : T) :
    Except (SqlError E) (PushValue σ) :=
  match env.push self.arguments v with
  | Except.error e => Except.error (SqlError.Argument e)
  | Except.ok args =>
    Except.ok ⟨self.command ++ ", $".data ++ format_u32_base10 (env.count args),
      args⟩

/-- `PushValue::end` (src/select/mod.rs:254-256): retag only. -/
def PushValue.end_ (self : PushValue σ) : SqlCommand σ :=
  ⟨self.command, self.arguments⟩

/-- The `additional` argument of the `try_reserve` call in
`PushColumn::column` (src/select/mod.rs:268): `column.len() + 2`. -/
def pushColumnReserve (column : List Char) : Nat :=
  column.length + 2

/-- `PushColumn::column` (src/select/mod.rs:267-272): reserve, append
`", "` then the column. -/
def PushColumn.column (alloc : Nat → Bool) (self : PushColumn σ)
    (column : List Char) : Except (SqlError E) (PushColumn σ) :=
  if tryReserve alloc self.command.length (pushColumnReserve column) then
    Except.ok ⟨self.command ++ ", ".data ++ column, self.arguments⟩
  else
    Except.error SqlError.OutOfMemory

/-- The `additional` argument of the `try_reserve` call in
`FromTable::from_table` (src/select/mod.rs:298): `table.len() + 6`. -/
def fromTableReserve (table : List Char) : Nat :=
  table.length + 6

/-- `FromTable::from_table` (src/select/mod.rs:297-302): reserve, append
`" FROM "` then the table, and retag into `PushFromTable`. -/
def FromTable.from_table (alloc : Nat → Bool) (self : FromTable σ)
    (table : List Char) : Except (SqlError E) (PushFromTable σ) :=
  if tryReserve alloc self.command.length (fromTableReserve table) then
    Except.ok ⟨self.command ++ " FROM ".data ++ table, self.arguments⟩
  else
    Except.error SqlError.OutOfMemory

/-- The `additional` argument of the `try_reserve` call in
`FromTable::static_from_tables` (src/select/mod.rs:308):
`tables.0.len() + 6`. -/
def staticFromTablesReserve (tables : Tables) : Nat :=
  tables.text.length + 6

/-- `FromTable::static_from_tables` (src/select/mod.rs:304-312): reserve,
append `" FROM "` then the fragment verbatim. -/
def FromTable.static_from_tables (alloc : Nat → Bool) (self : FromTable σ)
    (tables : Tables) : Except (SqlError E) (PushFromTable σ) :=
  if tryReserve alloc self.command.length (staticFromTablesReserve tables) then
    Except.ok ⟨self.command ++ " FROM ".data ++ tables.text, self.arguments⟩
  else
    Except.error SqlError.OutOfMemory

/-- `FromTable::end` (src/select/mod.rs:314-316): retag only; infallible
(plain function, no error case). -/
def FromTable.end_ (self : FromTable σ) : SqlCommand σ :=
  ⟨self.command, self.arguments⟩

/-- `PushColumn::from_table` (src/select/mod.rs:274-277): retag into
`FromTable` and delegate. -/
def PushColumn.from_table (alloc : Nat → Bool) (self : PushColumn σ)
    (table : List Char) : Except (SqlError E) (PushFromTable σ) :=
  FromTable.from_table alloc ⟨self.command, self.arguments⟩ table

/-- `PushColumn::static_from_tables` (src/select/mod.rs:279-285). -/
def PushColumn.static_from_tables (alloc : Nat → Bool) (self : PushColumn σ)
    (tables : Tables) : Except (SqlError E) (PushFromTable σ) :=
  FromTable.static_from_tables alloc ⟨self.command, self.arguments⟩ tables

/-- The `additional` argument of the `try_reserve` call in
`PushFromTable::from` (src/select/mod.rs:330): `table.len() + 2`. -/
def pushFromReserve (table : List Char) : Nat :=
  table.length + 2

/-- `PushFromTable::from` (src/select/mod.rs:329-334): reserve, append
`", "` then the table. -/
def PushFromTable.from_ (alloc : Nat → Bool) (self : PushFromTable σ)
    (table : List Char) : Except (SqlError E) (PushFromTable σ) :=
  if tryReserve alloc self.command.length (pushFromReserve table) then
    Except.ok ⟨self.command ++ ", ".data ++ table, self.arguments⟩
  else
    Except.error SqlError.OutOfMemory

/-- `PushFromTable::where_clause` (src/select/mod.rs:336-338): retag
only. -/
def PushFromTable.where_clause (self : PushFromTable σ) : PushWhereClause σ :=
  ⟨self.command, self.arguments⟩

/-- `PushFromTable::end` (src/select/mod.rs:340-342): retag only. -/
def PushFromTable.end_ (self : PushFromTable σ) : SqlCommand σ :=
  ⟨self.command, self.arguments⟩

/-- `PushWhereClause::end` (src/select/mod.rs:353-355): retag only. -/
def PushWhereClause.end_ (self : PushWhereClause σ) : SqlCommand σ :=
  ⟨self.command, self.arguments⟩

/-- The method calls of the public stage API of `src/select/mod.rs`, as
data: one constructor per distinct method name a caller can write in a
fluent chain. -/
inductive Op (T : Type) where
  | column (c : List Char)
  | column_as (c al : List Char)
  | columns (cs : List (List Char))
  | static_columns (f : Columns)
  | value (v : T)
  | values (vs : List T)
  | from_table (t : List Char)
  | static_from_tables (t : Tables)
  | from_ (t : List Char)
  | where_clause
  | end_

/-- The stages a fluent chain can rest at between public method calls:
these are exactly the receiver/return types of the public methods of
`src/select/mod.rs` (`SelectColumn` never rests: every `Select` method
retags into it and immediately delegates). -/
inductive Stage (σ : Type) where
  | start (s : Select σ)
  | pushValue (s : PushValue σ)
  | pushColumn (s : PushColumn σ)
  | fromTable (s : FromTable σ)
  | pushFromTable (s : PushFromTable σ)
  | pushWhere (s : PushWhereClause σ)
  | terminal (s : SqlCommand σ)

/-- The command buffer owned by a stage. -/
def stageCommand : Stage σ → List Char
  | Stage.start s => s.command
  | Stage.pushValue s => s.command
  | Stage.pushColumn s => s.command
  | Stage.fromTable s => s.command
  | Stage.pushFromTable s => s.command
  | Stage.pushWhere s => s.command
  | Stage.terminal s => s.command

/-- The argument collection owned by a stage. -/
def stageArguments : Stage σ → σ
  | Stage.start s => s.arguments
  | Stage.pushValue s => s.arguments
  | Stage.pushColumn s => s.arguments
  | Stage.fromTable s => s.arguments
  | Stage.pushFromTable s => s.arguments
  | Stage.pushWhere s => s.arguments
  | Stage.terminal s => s.arguments

/-- One public method call: `none` when the receiver stage has no method
of that name (the call does not type-check in Rust), `some` with the
method's result otherwise. The availability table is read directly off
the `impl` blocks of `src/select/mod.rs`. -/
def step (env : Env T E σ) : Stage σ → Op T →
    Option (Except (SqlError E) (Stage σ))
  | Stage.start s, Op.column c =>
    some ((Select.column env.alloc s c).map Stage.pushColumn)
  | Stage.start s, Op.column_as c al =>
    some ((Select.column_as env.alloc s c al).map Stage.pushColumn)
  | Stage.start s, Op.columns cs =>
    some ((Select.columns env.alloc s cs).map Stage.pushColumn)
  | Stage.start s, Op.static_columns f =>
    some ((Select.static_columns env.alloc s f).map Stage.fromTable)
  | Stage.start s, Op.value v =>
    some ((Select.value env s v).map Stage.pushValue)
  | Stage.start s, Op.values vs =>
    some ((Select.values env s vs).map Stage.terminal)
  | Stage.pushValue s, Op.value v =>
    some ((PushValue.value env s v).map Stage.pushValue)
  | Stage.pushValue s, Op.end_ =>
    some (Except.ok (Stage.terminal (PushValue.end_ s)))
  | Stage.pushColumn s, Op.column c =>
    some ((PushColumn.column env.alloc s c).map Stage.pushColumn)
  | Stage.pushColumn s, Op.from_table t =>
    some ((PushColumn.from_table env.alloc s t).map Stage.pushFromTable)
  | Stage.pushColumn s, Op.static_from_tables t =>
    some ((PushColumn.static_from_tables env.alloc s t).map Stage.pushFromTable)
  | Stage.fromTable s, Op.from_table t =>
    some ((FromTable.from_table env.alloc s t).map Stage.pushFromTable)
  | Stage.fromTable s, Op.static_from_tables t =>
    some ((FromTable.static_from_tables env.alloc s t).map Stage.pushFromTable)
  | Stage.fromTable s, Op.end_ =>
    some (Except.ok (Stage.terminal (FromTable.end_ s)))
  | Stage.pushFromTable s, Op.from_ t =>
    some ((PushFromTable.from_ env.alloc s t).map Stage.pushFromTable)
  | Stage.pushFromTable s, Op.where_clause =>
    some (Except.ok (Stage.pushWhere (PushFromTable.where_clause s)))
  | Stage.pushFromTable s, Op.end_ =>
    some (Except.ok (Stage.terminal (PushFromTable.end_ s)))
  | Stage.pushWhere s, Op.end_ =>
    some (Except.ok (Stage.terminal (PushWhereClause.end_ s)))
  | _, _ => none

/-- Run a fluent chain: `none` as soon as a call is illegal (no such
method on the current stage), `some (error e)` when a legal call fails
(the `?` operator ends the chain), `some (ok st)` when every call
succeeded. -/
def runOps (env : Env T E σ) (st : Stage σ) : List (Op T) →
    Option (Except (SqlError E) (Stage σ))
  | [] => some (Except.ok st)
  | op :: rest =>
    match step env st op with
    | none => none
    | some (Except.error e) => some (Except.error e)
    | some (Except.ok st1) => runOps env st1 rest

/-- The `select(arguments)` free function (src/select/mod.rs:12-14). -/
def select (arguments : σ) : Select σ :=
  Select.new arguments

/-- Chain `select(args).value(v)?.value(vs[0])?...` continued:
fold `PushValue::value` over a list of further values. -/
def pushValueChain (env : Env T E σ) (s : PushValue σ) :
    List T → Except (SqlError E) (PushValue σ)
  | [] => Except.ok s
  | v :: rest =>
    match PushValue.value env s v with
    | Except.error e => Except.error e
    | Except.ok s1 => pushValueChain env s1 rest

/-- The full chain `select(args).value(v)?` followed by one
`PushValue::value` call per element of `vs`. -/
def valueChain (env : Env T E σ) (args : σ) (v : T) (vs : List T) :
    Except (SqlError E) (PushValue σ) :=
  match Select.value env (Select.new args) v with
  | Except.error e => Except.error e
  | Except.ok s => pushValueChain env s vs

/-- Stated from the spec's words (claim C6): the expected placeholder
text for `n` bound values, ` $1, $2, …, $n`. -/
def specPlaceholders : Nat → List Char
  | 0 => []
  | 1 => " $1".data
  | Nat.succ (Nat.succ k) =>
    specPlaceholders (k + 1) ++ ", $".data ++ Nat.toDigits 10 (k + 2)

/-- The placeholder text appended after the first value: one
`, $(k+i)` group for each `i = 1, …, m`, starting from count `k`. -/
def phTail (k : Nat) : Nat → List Char
  | 0 => []
  | Nat.succ m => ", $".data ++ Nat.toDigits 10 (k + 1) ++ phTail (k + 1) m

/-- A concrete environment for witnesses: the always-succeeding allocator
and a no-op argument collection (like a unit `ArgumentBuffer`). -/
def envUnit : Env Unit Unit Unit :=
  ⟨fun _ => true, fun _ _ => Except.ok (), fun _ => 0⟩

/-- A concrete environment for witnesses: the always-succeeding allocator
and a counting argument collection satisfying the count contract. -/
def envCount : Env Unit Unit Nat :=
  ⟨fun _ => true, fun n _ => Except.ok (n + 1), fun n => n⟩

theorem phTail_snoc (m : Nat) : ∀ k : Nat,
    phTail k (m + 1) = phTail k m ++ ", $".data ++ Nat.toDigits 10 (k + m + 1) := by
  induction m with
  | zero => intro k; simp [phTail]
  | succ m ih =>
    intro k
    rw [phTail, ih (k + 1), phTail]
    simp [List.append_assoc]
    ring_nf

theorem specPlaceholders_eq_phTail (m : Nat) :
    specPlaceholders (m + 1) = " $1".data ++ phTail 1 m := by
  induction m with
  | zero => simp [specPlaceholders, phTail]
  | succ m ih =>
    rw [show m + 1 + 1 = Nat.succ (Nat.succ m) from rfl, specPlaceholders,
      phTail_snoc, ih]
    simp [List.append_assoc]
    ring_nf

theorem format_small {n : Nat} (h : n < 4294967296) :
    format_u32_base10 n = Nat.toDigits 10 n := by
  simp [format_u32_base10, Nat.mod_eq_of_lt h]

theorem except_map_ok {ε α β : Type} {f : Except ε α} {g : α → β} {b : β}
    (h : Except.map g f = Except.ok b) : ∃ a, f = Except.ok a ∧ b = g a := by
  cases f with
  | error e => simp [Except.map] at h
  | ok a =>
    simp only [Except.map, Except.ok.injEq] at h
    exact ⟨a, rfl, h.symm⟩

theorem column_ok {σ E : Type} {alloc : Nat → Bool} {s : SelectColumn σ}
    {c : List Char} {t : PushColumn σ}
    (h : SelectColumn.column (E := E) alloc s c = Except.ok t) :
    t.command = s.command ++ " ".data ++ c ∧ t.arguments = s.arguments := by
  unfold SelectColumn.column at h
  split at h
  · simp only [Except.ok.injEq] at h
    subst h
    exact ⟨rfl, rfl⟩
  · simp at h

theorem column_as_ok {σ E : Type} {alloc : Nat → Bool} {s : SelectColumn σ}
    {c al : List Char} {t : PushColumn σ}
    (h : SelectColumn.column_as (E := E) alloc s c al = Except.ok t) :
    t.command = s.command ++ " ".data ++ c ++ " AS ".data ++ al ∧
      t.arguments = s.arguments := by
  unfold SelectColumn.column_as at h
  split at h
  · simp only [Except.ok.injEq] at h
    subst h
    exact ⟨rfl, rfl⟩
  · simp at h

theorem columns_ok {σ E : Type} {alloc : Nat → Bool} {s : SelectColumn σ}
    {cs : List (List Char)} {t : PushColumn σ}
    (h : SelectColumn.columns (E := E) alloc s cs = Except.ok t) :
    ∃ first rest, cs = first :: rest ∧
      t.command = s.command ++ " ".data ++ first ++
        (rest.map (fun c => ", ".data ++ c)).flatten ∧
      t.arguments = s.arguments := by
  unfold SelectColumn.columns at h
  split at h
  · match cs, h with
    | first :: rest, h =>
      simp only [Except.ok.injEq] at h
      subst h
      exact ⟨first, rest, rfl, rfl, rfl⟩
  · simp at h

theorem static_columns_ok {σ E : Type} {alloc : Nat → Bool}
    {s : SelectColumn σ} {f : Columns} {t : FromTable σ}
    (h : SelectColumn.static_columns (E := E) alloc s f = Except.ok t) :
    t.command = s.command ++ " ".data ++ f.text ∧ t.arguments = s.arguments := by
  unfold SelectColumn.static_columns at h
  split at h
  · simp only [Except.ok.injEq] at h
    subst h
    exact ⟨rfl, rfl⟩
  · simp at h

theorem push_column_ok {σ E : Type} {alloc : Nat → Bool} {s : PushColumn σ}
    {c : List Char} {t : PushColumn σ}
    (h : PushColumn.column (E := E) alloc s c = Except.ok t) :
    t.command = s.command ++ ", ".data ++ c ∧ t.arguments = s.arguments := by
  unfold PushColumn.column at h
  split at h
  · simp only [Except.ok.injEq] at h
    subst h
    exact ⟨rfl, rfl⟩
  · simp at h

theorem from_table_ok {σ E : Type} {alloc : Nat → Bool} {s : FromTable σ}
    {c : List Char} {t : PushFromTable σ}
    (h : FromTable.from_table (E := E) alloc s c = Except.ok t) :
    t.command = s.command ++ " FROM ".data ++ c ∧ t.arguments = s.arguments := by
  unfold FromTable.from_table at h
  split at h
  · simp only [Except.ok.injEq] at h
    subst h
    exact ⟨rfl, rfl⟩
  · simp at h

theorem static_from_tables_ok {σ E : Type} {alloc : Nat → Bool}
    {s : FromTable σ} {tb : Tables} {t : PushFromTable σ}
    (h : FromTable.static_from_tables (E := E) alloc s tb = Except.ok t) :
    t.command = s.command ++ " FROM ".data ++ tb.text ∧
      t.arguments = s.arguments := by
  unfold FromTable.static_from_tables at h
  split at h
  · simp only [Except.ok.injEq] at h
    subst h
    exact ⟨rfl, rfl⟩
  · simp at h

theorem push_from_ok {σ E : Type} {alloc : Nat → Bool} {s : PushFromTable σ}
    {c : List Char} {t : PushFromTable σ}
    (h : PushFromTable.from_ (E := E) alloc s c = Except.ok t) :
    t.command = s.command ++ ", ".data ++ c ∧ t.arguments = s.arguments := by
  unfold PushFromTable.from_ at h
  split at h
  · simp only [Except.ok.injEq] at h
    subst h
    exact ⟨rfl, rfl⟩
  · simp at h

theorem value_ok {T E σ : Type} {env : Env T E σ} {s : Select σ} {v : T}
    {t : PushValue σ} (h : Select.value env s v = Except.ok t) :
    ∃ args, env.push s.arguments v = Except.ok args ∧
      t.command = s.command ++ " $".data ++ format_u32_base10 (env.count args) ∧
      t.arguments = args := by
  unfold Select.value at h
  cases hp : env.push s.arguments v with
  | error e => rw [hp] at h; simp at h
  | ok args =>
    rw [hp] at h
    simp only [Except.ok.injEq] at h
    subst h
    exact ⟨args, rfl, rfl, rfl⟩

theorem push_value_ok {T E σ : Type} {env : Env T E σ} {s : PushValue σ}
    {v : T} {t : PushValue σ} (h : PushValue.value env s v = Except.ok t) :
    ∃ args, env.push s.arguments v = Except.ok args ∧
      t.command = s.command ++ ", $".data ++ format_u32_base10 (env.count args) ∧
      t.arguments = args := by
  unfold PushValue.value at h
  cases hp : env.push s.arguments v with
  | error e => rw [hp] at h; simp at h
  | ok args =>
    rw [hp] at h
    simp only [Except.ok.injEq] at h
    subst h
    exact ⟨args, rfl, rfl, rfl⟩

theorem valuesLoop_ok_append {T E σ : Type} {env : Env T E σ} :
    ∀ (vs : List T) (cmd : List Char) (args : σ) (r : SqlCommand σ),
    valuesLoop env cmd args vs = Except.ok r →
    ∃ u, r.command = cmd ++ u := by
  intro vs
  induction vs with
  | nil =>
    intro cmd args r h
    unfold valuesLoop at h
    simp only [Except.ok.injEq] at h
    subst h
    exact ⟨[], by simp⟩
  | cons v rest ih =>
    intro cmd args r h
    unfold valuesLoop at h
    cases hp : env.push args v with
    | error e => rw [hp] at h; simp at h
    | ok a1 =>
      rw [hp] at h
      obtain ⟨u, hu⟩ := ih _ _ _ h
      exact ⟨", $".data ++ format_u32_base10 (env.count a1) ++ u,
        by rw [hu]; simp [List.append_assoc]⟩

theorem values_ok_append {T E σ : Type} {env : Env T E σ} {s : Select σ}
    {vs : List T} {r : SqlCommand σ}
    (h : Select.values env s vs = Except.ok r) :
    ∃ u, r.command = s.command ++ u := by
  cases vs with
  | nil => simp only [Select.values] at h; simp at h
  | cons first rest =>
    simp only [Select.values] at h
    cases hp : env.push s.arguments first with
    | error e => rw [hp] at h; simp at h
    | ok a1 =>
      rw [hp] at h
      obtain ⟨u, hu⟩ := valuesLoop_ok_append rest _ _ _ h
      exact ⟨" $".data ++ format_u32_base10 (env.count a1) ++ u,
        by rw [hu]; simp [List.append_assoc]⟩

theorem column_reserve_fail {σ E : Type} {alloc : Nat → Bool}
    {s : SelectColumn σ} {c : List Char}
    (h : tryReserve alloc s.command.length (columnReserve c) = false) :
    SelectColumn.column (E := E) alloc s c =
      Except.error SqlError.OutOfMemory := by
  simp [SelectColumn.column, h]

theorem column_as_reserve_fail {σ E : Type} {alloc : Nat → Bool}
    {s : SelectColumn σ} {c al : List Char}
    (h : tryReserve alloc s.command.length (columnAsReserve c al) = false) :
    SelectColumn.column_as (E := E) alloc s c al =
      Except.error SqlError.OutOfMemory := by
  simp [SelectColumn.column_as, h]

theorem columns_reserve_fail {σ E : Type} {alloc : Nat → Bool}
    {s : SelectColumn σ} {cs : List (List Char)}
    (h : tryReserve alloc s.command.length (columnsReserve cs) = false) :
    SelectColumn.columns (E := E) alloc s cs =
      Except.error SqlError.OutOfMemory := by
  simp [SelectColumn.columns, h]

theorem static_columns_reserve_fail {σ E : Type} {alloc : Nat → Bool}
    {s : SelectColumn σ} {f : Columns}
    (h : tryReserve alloc s.command.length (staticColumnsReserve f) = false) :
    SelectColumn.static_columns (E := E) alloc s f =
      Except.error SqlError.OutOfMemory := by
  simp [SelectColumn.static_columns, h]

theorem push_column_reserve_fail {σ E : Type} {alloc : Nat → Bool}
    {s : PushColumn σ} {c : List Char}
    (h : tryReserve alloc s.command.length (pushColumnReserve c) = false) :
    PushColumn.column (E := E) alloc s c =
      Except.error SqlError.OutOfMemory := by
  simp [PushColumn.column, h]

theorem from_table_reserve_fail {σ E : Type} {alloc : Nat → Bool}
    {s : FromTable σ} {c : List Char}
    (h : tryReserve alloc s.command.length (fromTableReserve c) = false) :
    FromTable.from_table (E := E) alloc s c =
      Except.error SqlError.OutOfMemory := by
  simp [FromTable.from_table, h]

theorem static_from_tables_reserve_fail {σ E : Type} {alloc : Nat → Bool}
    {s : FromTable σ} {tb : Tables}
    (h : tryReserve alloc s.command.length (staticFromTablesReserve tb) = false) :
    FromTable.static_from_tables (E := E) alloc s tb =
      Except.error SqlError.OutOfMemory := by
  simp [FromTable.static_from_tables, h]

theorem push_from_reserve_fail {σ E : Type} {alloc : Nat → Bool}
    {s : PushFromTable σ} {c : List Char}
    (h : tryReserve alloc s.command.length (pushFromReserve c) = false) :
    PushFromTable.from_ (E := E) alloc s c =
      Except.error SqlError.OutOfMemory := by
  simp [PushFromTable.from_, h]

theorem valuesLoop_placeholders {T E σ : Type} {env : Env T E σ}
    (hcount : ∀ a v a1, env.push a v = Except.ok a1 →
      env.count a1 = env.count a + 1) :
    ∀ (vs : List T) (cmd : List Char) (args : σ) (r : SqlCommand σ) (k : Nat),
    env.count args = k → k + vs.length < 4294967296 →
    valuesLoop env cmd args vs = Except.ok r →
    r.command = cmd ++ phTail k vs.length ∧
      env.count r.arguments = k + vs.length := by
  intro vs
  induction vs with
  | nil =>
    intro cmd args r k hk hlt h
    unfold valuesLoop at h
    simp only [Except.ok.injEq] at h
    subst h
    simp [phTail, hk]
  | cons v rest ih =>
    intro cmd args r k hk hlt h
    unfold valuesLoop at h
    cases hp : env.push args v with
    | error e => rw [hp] at h; simp at h
    | ok a1 =>
      rw [hp] at h
      have hk1 : env.count a1 = k + 1 := by rw [hcount _ _ _ hp, hk]
      have hfmt : format_u32_base10 (env.count a1) = Nat.toDigits 10 (k + 1) := by
        rw [hk1]
        exact format_small (by simp at hlt; omega)
      obtain ⟨hc, ha⟩ := ih _ a1 r (k + 1) hk1 (by simp at hlt ⊢; omega) h
      constructor
      · rw [hc, hfmt]
        simp only [List.length_cons, phTail]
        simp [List.append_assoc]
      · rw [ha]
        simp only [List.length_cons]
        omega

theorem pushValueChain_placeholders {T E σ : Type} {env : Env T E σ}
    (hcount : ∀ a v a1, env.push a v = Except.ok a1 →
      env.count a1 = env.count a + 1) :
    ∀ (vs : List T) (s : PushValue σ) (r : PushValue σ) (k : Nat),
    env.count s.arguments = k → k + vs.length < 4294967296 →
    pushValueChain env s vs = Except.ok r →
    r.command = s.command ++ phTail k vs.length ∧
      env.count r.arguments = k + vs.length := by
  intro vs
  induction vs with
  | nil =>
    intro s r k hk hlt h
    unfold pushValueChain at h
    simp only [Except.ok.injEq] at h
    subst h
    simp [phTail, hk]
  | cons v rest ih =>
    intro s r k hk hlt h
    unfold pushValueChain at h
    cases hp : PushValue.value env s v with
    | error e => rw [hp] at h; simp at h
    | ok s1 =>
      rw [hp] at h
      obtain ⟨args, hpush, hcmd, harg⟩ := push_value_ok hp
      have hk1 : env.count s1.arguments = k + 1 := by
        rw [harg, hcount _ _ _ hpush, hk]
      have hfmt : format_u32_base10 (env.count args) = Nat.toDigits 10 (k + 1) := by
        rw [← harg, hk1]
        exact format_small (by simp at hlt; omega)
      obtain ⟨hc, ha⟩ := ih _ _ (k + 1) hk1 (by simp at hlt ⊢; omega) h
      constructor
      · rw [hc, hcmd, hfmt]
        simp only [List.length_cons, phTail]
        simp [List.append_assoc]
      · rw [ha]
        simp only [List.length_cons]
        omega

theorem flatten_sep_length (l : List (List Char)) :
    ((l.map (fun c => ", ".data ++ c)).flatten).length =
      (l.map (fun s => s.length + 2)).sum := by
  induction l with
  | nil => simp
  | cons c rest ih =>
    simp only [List.map_cons, List.flatten_cons, List.length_append, ih,
      List.sum_cons, List.length_cons, List.length_nil]
    omega

theorem columnsReserve_eq {cs : List (List Char)} (hne : cs ≠ [])
    (hs : (cs.map (fun s => s.length + 2)).sum < usizeWrap) :
    columnsReserve cs = (cs.map (fun s => s.length + 2)).sum - 1 := by
  unfold columnsReserve
  have h1 : 1 ≤ (cs.map (fun s => s.length + 2)).sum := by
    cases cs with
    | nil => exact absurd rfl hne
    | cons a l => simp; omega
  unfold usizeWrap at hs ⊢
  omega

/-- Claim C1 (code bug, evaluation at the failing input): calling
`columns` with the empty sequence does NOT fail with `ArgumentNotFound`:
`total_length` (src/select/mod.rs:206) is `0usize - 1`, which underflows
before the `ArgumentNotFound` check at line 209 is reached — a panic in
debug builds; in release builds it wraps to `usize::MAX`, so the
`try_reserve` call fails with the reservation error kind instead, for
every prior builder state and every allocator. The buffer and argument
collection are indeed left unchanged (the failure precedes any
mutation). -/
theorem claim_C1 {σ E : Type} (alloc : Nat → Bool) (s : Select σ) :
    Select.columns (E := E) alloc s [] = Except.error SqlError.OutOfMemory := by
  unfold Select.columns SelectColumn.columns
  have hres : columnsReserve ([] : List (List Char)) = usizeWrap - 1 := by
    decide
  have hfail : tryReserve alloc s.command.length (columnsReserve []) = false := by
    rw [hres]
    unfold tryReserve
    have : ¬ (s.command.length + (usizeWrap - 1) ≤ isizeMax) := by
      unfold usizeWrap isizeMax
      omega
    simp [this]
  simp [hfail]

/-- Claim C2 (counterexample): `SelectColumn::static_columns`
(src/select/mod.rs:221-231) does NOT reserve exactly the bytes it
appends: on the concrete state `SELECT` with fragment `a` it reserves
`columns.0.len() = 1` byte but appends 2 bytes (the `' '` separator plus
the fragment), growing the buffer from 6 to 8 bytes. -/
theorem claim_C2_counterexample :
    SelectColumn.static_columns (E := Unit) (fun _ => true)
      ⟨"SELECT".data, ()⟩ ⟨"a".data⟩ = Except.ok ⟨"SELECT a".data, ()⟩ ∧
    ("SELECT a".data).length - ("SELECT".data).length ≠
      staticColumnsReserve ⟨"a".data⟩ := by
  exact ⟨rfl, by decide⟩

/-- Claim C2 (amended): in every transition of `src/select/mod.rs` that
calls `try_reserve`, the reservation happens before any mutation, and the
reserved byte count equals the appended byte count for `column`,
`column_as`, `columns` (on any sequence whose unwrapped total fits in
`usize`), `PushColumn::column`, `from_table`, `static_from_tables` and
`from` — but `static_columns` reserves one byte fewer than the
`1 + fragment` bytes it appends (the `' '` separator is not counted), and
the value transitions (`Select::value`, `Select::values`,
`PushValue::value`) append placeholder text with no reservation at all
(no `try_reserve` call occurs in their definitions). -/
theorem claim_C2 :
    (∀ (σ E : Type) (alloc : Nat → Bool) (s : SelectColumn σ) (c : List Char)
      (t : PushColumn σ),
      SelectColumn.column (E := E) alloc s c = Except.ok t →
      t.command.length = s.command.length + columnReserve c)
    ∧ (∀ (σ E : Type) (alloc : Nat → Bool) (s : SelectColumn σ)
      (c al : List Char) (t : PushColumn σ),
      SelectColumn.column_as (E := E) alloc s c al = Except.ok t →
      t.command.length = s.command.length + columnAsReserve c al)
    ∧ (∀ (σ E : Type) (alloc : Nat → Bool) (s : SelectColumn σ)
      (cs : List (List Char)) (t : PushColumn σ),
      (cs.map (fun x => x.length + 2)).sum < usizeWrap →
      SelectColumn.columns (E := E) alloc s cs = Except.ok t →
      t.command.length = s.command.length + columnsReserve cs)
    ∧ (∀ (σ E : Type) (alloc : Nat → Bool) (s : SelectColumn σ) (f : Columns)
      (t : FromTable σ),
      SelectColumn.static_columns (E := E) alloc s f = Except.ok t →
      t.command.length = s.command.length + staticColumnsReserve f + 1)
    ∧ (∀ (σ E : Type) (alloc : Nat → Bool) (s : PushColumn σ) (c : List Char)
      (t : PushColumn σ),
      PushColumn.column (E := E) alloc s c = Except.ok t →
      t.command.length = s.command.length + pushColumnReserve c)
    ∧ (∀ (σ E : Type) (alloc : Nat → Bool) (s : FromTable σ) (c : List Char)
      (t : PushFromTable σ),
      FromTable.from_table (E := E) alloc s c = Except.ok t →
      t.command.length = s.command.length + fromTableReserve c)
    ∧ (∀ (σ E : Type) (alloc : Nat → Bool) (s : FromTable σ) (tb : Tables)
      (t : PushFromTable σ),
      FromTable.static_from_tables (E := E) alloc s tb = Except.ok t →
      t.command.length = s.command.length + staticFromTablesReserve tb)
    ∧ (∀ (σ E : Type) (alloc : Nat → Bool) (s : PushFromTable σ)
      (c : List Char) (t : PushFromTable σ),
      PushFromTable.from_ (E := E) alloc s c = Except.ok t →
      t.command.length = s.command.length + pushFromReserve c) := by
  refine ⟨?_, ?_, ?_, ?_, ?_, ?_, ?_, ?_⟩
  · intro σ E alloc s c t h
    obtain ⟨hc, _⟩ := column_ok h
    rw [hc]
    simp only [List.length_append, List.length_cons, List.length_nil,
      columnReserve]
    omega
  · intro σ E alloc s c al t h
    obtain ⟨hc, _⟩ := column_as_ok h
    rw [hc]
    simp only [List.length_append, List.length_cons, List.length_nil,
      columnAsReserve]
    omega
  · intro σ E alloc s cs t hs h
    obtain ⟨first, rest, hcs, hc, _⟩ := columns_ok h
    subst hcs
    rw [hc, columnsReserve_eq (by simp) hs]
    have hfl := flatten_sep_length rest
    simp only [List.length_append, List.map_cons, List.sum_cons,
      List.length_cons, List.length_nil] at hfl hs ⊢
    omega
  · intro σ E alloc s f t h
    obtain ⟨hc, _⟩ := static_columns_ok h
    rw [hc]
    simp only [List.length_append, List.length_cons, List.length_nil,
      staticColumnsReserve]
    omega
  · intro σ E alloc s c t h
    obtain ⟨hc, _⟩ := push_column_ok h
    rw [hc]
    simp only [List.length_append, List.length_cons, List.length_nil,
      pushColumnReserve]
    omega
  · intro σ E alloc s c t h
    obtain ⟨hc, _⟩ := from_table_ok h
    rw [hc]
    simp only [List.length_append, List.length_cons, List.length_nil,
      fromTableReserve]
    omega
  · intro σ E alloc s tb t h
    obtain ⟨hc, _⟩ := static_from_tables_ok h
    rw [hc]
    simp only [List.length_append, List.length_cons, List.length_nil,
      staticFromTablesReserve]
    omega
  · intro σ E alloc s c t h
    obtain ⟨hc, _⟩ := push_from_ok h
    rw [hc]
    simp only [List.length_append, List.length_cons, List.length_nil,
      pushFromReserve]
    omega

/-- Claim C2 (witness): the first conjunct applied at a concrete input:
`SelectColumn::column` on state `SELECT` with column `a` appends exactly
the `column.len() + 1` bytes it reserved. -/
theorem claim_C2_witness :
    (⟨"SELECT a".data, ()⟩ : PushColumn Unit).command.length =
      ("SELECT".data).length + columnReserve "a".data :=
  claim_C2.1 Unit Unit (fun _ => true) ⟨"SELECT".data, ()⟩ "a".data
    ⟨"SELECT a".data, ()⟩ rfl

/-- Claim C8: `Select::values` (src/select/mod.rs:125-151) on an empty
iterator fails with `ArgumentNotFound` immediately — before any push
into the argument collection and before any text is appended (the
`ok_or` on the first element is the first action of the function). -/
theorem claim_C8 {T E σ : Type} (env : Env T E σ) (s : Select σ) :
    Select.values env s ([] : List T) =
      Except.error SqlError.ArgumentNotFound := rfl

/-- Claim C5: in every fallible append transition of
`src/select/mod.rs` that calls `try_reserve` (`column`, `column_as`,
`columns`, `static_columns`, `PushColumn::column`, `from_table`,
`static_from_tables`, `from`), a failed reservation makes the transition
return the reservation error immediately: no successor stage is produced,
so no partial fragment is ever appended and the buffer text at the moment
of failure is exactly the text before the call (in the source the
`try_reserve?` line precedes every `push`/`push_str` mutation; in this
pure embedding the error constructor carries no mutated state). -/
theorem claim_C5 :
    (∀ (σ E : Type) (alloc : Nat → Bool) (s : SelectColumn σ) (c : List Char),
      tryReserve alloc s.command.length (columnReserve c) = false →
      SelectColumn.column (E := E) alloc s c =
        Except.error SqlError.OutOfMemory)
    ∧ (∀ (σ E : Type) (alloc : Nat → Bool) (s : SelectColumn σ)
      (c al : List Char),
      tryReserve alloc s.command.length (columnAsReserve c al) = false →
      SelectColumn.column_as (E := E) alloc s c al =
        Except.error SqlError.OutOfMemory)
    ∧ (∀ (σ E : Type) (alloc : Nat → Bool) (s : SelectColumn σ)
      (cs : List (List Char)),
      tryReserve alloc s.command.length (columnsReserve cs) = false →
      SelectColumn.columns (E := E) alloc s cs =
        Except.error SqlError.OutOfMemory)
    ∧ (∀ (σ E : Type) (alloc : Nat → Bool) (s : SelectColumn σ) (f : Columns),
      tryReserve alloc s.command.length (staticColumnsReserve f) = false →
      SelectColumn.static_columns (E := E) alloc s f =
        Except.error SqlError.OutOfMemory)
    ∧ (∀ (σ E : Type) (alloc : Nat → Bool) (s : PushColumn σ) (c : List Char),
      tryReserve alloc s.command.length (pushColumnReserve c) = false →
      PushColumn.column (E := E) alloc s c =
        Except.error SqlError.OutOfMemory)
    ∧ (∀ (σ E : Type) (alloc : Nat → Bool) (s : FromTable σ) (c : List Char),
      tryReserve alloc s.command.length (fromTableReserve c) = false →
      FromTable.from_table (E := E) alloc s c =
        Except.error SqlError.OutOfMemory)
    ∧ (∀ (σ E : Type) (alloc : Nat → Bool) (s : FromTable σ) (tb : Tables),
      tryReserve alloc s.command.length (staticFromTablesReserve tb) = false →
      FromTable.static_from_tables (E := E) alloc s tb =
        Except.error SqlError.OutOfMemory)
    ∧ (∀ (σ E : Type) (alloc : Nat → Bool) (s : PushFromTable σ)
      (c : List Char),
      tryReserve alloc s.command.length (pushFromReserve c) = false →
      PushFromTable.from_ (E := E) alloc s c =
        Except.error SqlError.OutOfMemory) := by
  refine ⟨?_, ?_, ?_, ?_, ?_, ?_, ?_, ?_⟩
  · intro σ E alloc s c h
    exact column_reserve_fail h
  · intro σ E alloc s c al h
    exact column_as_reserve_fail h
  · intro σ E alloc s cs h
    exact columns_reserve_fail h
  · intro σ E alloc s f h
    exact static_columns_reserve_fail h
  · intro σ E alloc s c h
    exact push_column_reserve_fail h
  · intro σ E alloc s c h
    exact from_table_reserve_fail h
  · intro σ E alloc s tb h
    exact static_from_tables_reserve_fail h
  · intro σ E alloc s c h
    exact push_from_reserve_fail h

/-- Claim C5 (witness): the first conjunct at a concrete input: with an
allocator that refuses every request, `SelectColumn::column` on state
`SELECT` with column `a` fails with the reservation error. -/
theorem claim_C5_witness :
    tryReserve (fun _ => false) ("SELECT".data).length (columnReserve "a".data)
      = false ∧
    SelectColumn.column (E := Unit) (fun _ => false) ⟨"SELECT".data, ()⟩
      "a".data = Except.error SqlError.OutOfMemory :=
  ⟨by decide, claim_C5.1 Unit Unit (fun _ => false) ⟨"SELECT".data, ()⟩
    "a".data (by decide)⟩

/-- Claim C4 (counterexample): `select(args).static_columns(f)?` with
fragment `a` succeeds and leaves the buffer at exactly `SELECT a`, which
contains no character `F` at all — so the buffer does not end with the
fragment followed by the `FROM` keyword: `Select::static_columns`
(src/select/mod.rs:103-106, delegating to src/select/mod.rs:221-231)
writes no `FROM` keyword. -/
theorem claim_C4_counterexample :
    Select.static_columns (E := Unit) (fun _ => true) (select ())
      ⟨"a".data⟩ = Except.ok ⟨"SELECT a".data, ()⟩ ∧
    'F' ∉ "SELECT a".data := by
  exact ⟨rfl, by decide⟩

/-- Claim C4 (amended): installing a pre-assembled static column fragment
from the Start stage appends `' '` and then the fragment text verbatim
and produces the `FromTable` (FromOpen) stage, writing no `FROM` keyword:
after `select(args).static_columns(f)?` the buffer is exactly `SELECT `
followed by f (the `FROM` keyword is only written later, by `from_table`
or `static_from_tables`). -/
theorem claim_C4 {σ E : Type} (args : σ) (f : Columns) (alloc : Nat → Bool)
    (h : tryReserve alloc ("SELECT".data).length (staticColumnsReserve f)
      = true) :
    Select.static_columns (E := E) alloc (select args) f =
      Except.ok ⟨"SELECT ".data ++ f.text, args⟩ := by
  unfold select Select.new Select.static_columns SelectColumn.static_columns
  simp only [h, if_true]
  rfl

/-- Claim C4 (witness): the amended claim at fragment `a` with the
always-succeeding allocator. -/
theorem claim_C4_witness :
    tryReserve (fun _ => true) ("SELECT".data).length
      (staticColumnsReserve ⟨"a".data⟩) = true ∧
    Select.static_columns (E := Unit) (fun _ => true) (select ())
      ⟨"a".data⟩ = Except.ok ⟨"SELECT ".data ++ "a".data, ()⟩ :=
  ⟨by decide, claim_C4 () ⟨"a".data⟩ (fun _ => true) (by decide)⟩

/-- Claim C10: `FromTable::end` (src/select/mod.rs:314-316) is infallible
(a total function with no error case), so a terminal command is reachable
with zero tables: for every fragment f whose text lacks the character
`F`, `select(args).static_columns(f)?.end()` is a finished command whose
text is exactly `SELECT ` followed by f, and that text contains no `F`
character, hence no `FROM` clause at all. -/
theorem claim_C10 {σ E : Type} (args : σ) (f : Columns) (alloc : Nat → Bool)
    (t : FromTable σ)
    (h : Select.static_columns (E := E) alloc (select args) f = Except.ok t) :
    FromTable.end_ t = ⟨"SELECT ".data ++ f.text, args⟩ ∧
    ('F' ∉ f.text → 'F' ∉ (FromTable.end_ t).command) := by
  unfold select Select.new Select.static_columns at h
  obtain ⟨hc, ha⟩ := static_columns_ok h
  have e : ("SELECT".data ++ " ".data : List Char) = "SELECT ".data := rfl
  simp only at hc ha
  have hcmd : t.command = "SELECT ".data ++ f.text := by
    rw [hc, ← e]
  constructor
  · unfold FromTable.end_
    rw [hcmd, ha]
  · intro hf
    unfold FromTable.end_
    simp only [hcmd]
    intro hmem
    rcases List.mem_append.mp hmem with hin | hin
    · simp at hin
    · exact hf hin

/-- Claim C10 (witness): at fragment `a` with the always-succeeding
allocator. -/
theorem claim_C10_witness :
    FromTable.end_ (⟨"SELECT a".data, ()⟩ : FromTable Unit) =
      ⟨"SELECT ".data ++ "a".data, ()⟩ ∧
    ('F' ∉ "a".data →
      'F' ∉ (FromTable.end_ (⟨"SELECT a".data, ()⟩ : FromTable Unit)).command) :=
  @claim_C10 Unit Unit () ⟨"a".data⟩ (fun _ => true) ⟨"SELECT a".data, ()⟩ rfl

/-- Claim C3 (counterexample): the chain
`select(args).column("a")?.column_as("b","c")?.from("t")?.end()` is NOT a
legal call sequence of the public stage API of `src/select/mod.rs`: after
`column`, the chain rests at `PushColumn` (src/select/mod.rs:261-286),
which exposes only `column`, `from_table` and `static_from_tables` — it
has no `column_as` (and no `from`), so the run of that op sequence stops
as illegal (`none`) at the second call. -/
theorem claim_C3_counterexample :
    runOps envUnit (Stage.start (select ()))
      [Op.column "a".data, Op.column_as "b".data "c".data,
       Op.from_ "t".data, Op.end_] = none := rfl

/-- Claim C3 (amended): the post-first-column stage (`PushColumn`) has no
aliased-column operation; an alias after the first column can only be
embedded in the column text itself, and `FROM` is entered with
`from_table`. The legal chain
`select(args).column("a")?.column("b AS c")?.from_table("t")?.end()`
renders exactly `SELECT a, b AS c FROM t` with the argument collection
untouched (zero bound arguments), for every argument collection, under
the always-succeeding allocator. -/
theorem claim_C3 {T E σ : Type} (env : Env T E σ) (args : σ)
    (h : env.alloc = fun _ => true) :
    runOps env (Stage.start (select args))
      [Op.column "a".data, Op.column "b AS c".data,
       Op.from_table "t".data, Op.end_] =
      some (Except.ok
        (Stage.terminal ⟨"SELECT a, b AS c FROM t".data, args⟩)) := by
  obtain ⟨al, pu, co⟩ := env
  simp only at h
  subst h
  rfl

/-- Claim C3 (witness): the amended chain at the concrete unit
environment. -/
theorem claim_C3_witness :
    runOps envUnit (Stage.start (select ()))
      [Op.column "a".data, Op.column "b AS c".data,
       Op.from_table "t".data, Op.end_] =
      some (Except.ok
        (Stage.terminal ⟨"SELECT a, b AS c FROM t".data, ()⟩)) :=
  claim_C3 envUnit () rfl

/-- Claim C7: the chain
`select(args).columns(&["x","y"])?.from_table("t")?.from("u")?.end()` is
legal and renders exactly `SELECT x, y FROM t, u` with the argument
collection untouched; moreover (general separator facts, read off the
successful transitions): `columns` writes its first column with a
leading `' '` and no comma and every later column preceded by `", "`;
`PushColumn::column` prefixes `", "`; `FromTable::from_table` introduces
the table list with `" FROM "`; `PushFromTable::from` prefixes later
tables with `", "`. -/
theorem claim_C7 :
    (runOps envUnit (Stage.start (select ()))
      [Op.columns ["x".data, "y".data], Op.from_table "t".data,
       Op.from_ "u".data, Op.end_] =
      some (Except.ok
        (Stage.terminal ⟨"SELECT x, y FROM t, u".data, ()⟩)))
    ∧ (∀ (σ E : Type) (alloc : Nat → Bool) (s : SelectColumn σ)
      (cs : List (List Char)) (t : PushColumn σ),
      SelectColumn.columns (E := E) alloc s cs = Except.ok t →
      ∃ first rest, cs = first :: rest ∧
        t.command = s.command ++ " ".data ++ first ++
          (rest.map (fun c => ", ".data ++ c)).flatten)
    ∧ (∀ (σ E : Type) (alloc : Nat → Bool) (s : PushColumn σ) (c : List Char)
      (t : PushColumn σ),
      PushColumn.column (E := E) alloc s c = Except.ok t →
      t.command = s.command ++ ", ".data ++ c)
    ∧ (∀ (σ E : Type) (alloc : Nat → Bool) (s : FromTable σ) (c : List Char)
      (t : PushFromTable σ),
      FromTable.from_table (E := E) alloc s c = Except.ok t →
      t.command = s.command ++ " FROM ".data ++ c)
    ∧ (∀ (σ E : Type) (alloc : Nat → Bool) (s : PushFromTable σ)
      (c : List Char) (t : PushFromTable σ),
      PushFromTable.from_ (E := E) alloc s c = Except.ok t →
      t.command = s.command ++ ", ".data ++ c) := by
  refine ⟨rfl, ?_, ?_, ?_, ?_⟩
  · intro σ E alloc s cs t h
    obtain ⟨first, rest, hcs, hc, _⟩ := columns_ok h
    exact ⟨first, rest, hcs, hc⟩
  · intro σ E alloc s c t h
    exact (push_column_ok h).1
  · intro σ E alloc s c t h
    exact (from_table_ok h).1
  · intro σ E alloc s c t h
    exact (push_from_ok h).1

/-- Claim C7 (witness): the `PushColumn::column` separator fact at a
concrete input. -/
theorem claim_C7_witness :
    (⟨"SELECT x, y".data, ()⟩ : PushColumn Unit).command =
      "SELECT x".data ++ ", ".data ++ "y".data :=
  claim_C7.2.2.1 Unit Unit (fun _ => true) ⟨"SELECT x".data, ()⟩ "y".data
    ⟨"SELECT x, y".data, ()⟩ rfl

/-- Claim C6: for every argument collection satisfying the count contract
(`count` starts at 0 and each successful `push` increments it by one) and
every sequence of N ≥ 1 values (N below the `u32` bound) whose pushes all
succeed, the placeholder text written by the value transitions is exactly
` $1, $2, …, $N` — 1-based, contiguous, none skipped or reused — and the
collection count is N afterwards; both for the `value`/`value`/… chain
(`Select::value` then `PushValue::value`) and for the single call
`Select::values`. -/
theorem claim_C6 {T E σ : Type} (env : Env T E σ) (args : σ)
    (hcount : ∀ a v a1, env.push a v = Except.ok a1 →
      env.count a1 = env.count a + 1)
    (h0 : env.count args = 0) :
    (∀ (v : T) (vs : List T) (r : PushValue σ),
      vs.length + 1 < 4294967296 →
      valueChain env args v vs = Except.ok r →
      r.command = "SELECT".data ++ specPlaceholders (vs.length + 1) ∧
        env.count r.arguments = vs.length + 1)
    ∧ (∀ (ws : List T) (r : SqlCommand σ),
      ws.length < 4294967296 →
      Select.values env (Select.new args) ws = Except.ok r →
      r.command = "SELECT".data ++ specPlaceholders ws.length ∧
        env.count r.arguments = ws.length) := by
  constructor
  · intro v vs r hlt h
    unfold valueChain at h
    cases hv : Select.value env (Select.new args) v with
    | error e => rw [hv] at h; simp at h
    | ok s1 =>
      rw [hv] at h
      obtain ⟨a1, hpush, hcmd, harg⟩ := value_ok hv
      have hpush1 : env.push args v = Except.ok a1 := hpush
      have hk1 : env.count a1 = 1 := by rw [hcount _ _ _ hpush1, h0]
      have hfmt : format_u32_base10 (env.count a1) = Nat.toDigits 10 1 := by
        rw [hk1]
        exact format_small (by omega)
      have hs1 : env.count s1.arguments = 1 := by rw [harg, hk1]
      obtain ⟨hc, ha⟩ := pushValueChain_placeholders hcount vs s1 r 1 hs1
        (by omega) h
      constructor
      · rw [hc, hcmd, hfmt, specPlaceholders_eq_phTail]
        have e1 : (" $".data ++ Nat.toDigits 10 1 : List Char) = " $1".data :=
          rfl
        rw [← e1]
        simp only [Select.new]
        simp [List.append_assoc]
      · omega
  · intro ws r hlt h
    cases ws with
    | nil => simp only [Select.values] at h; simp at h
    | cons w rest =>
      simp only [Select.values] at h
      cases hp : env.push (Select.new args).arguments w with
      | error e => rw [hp] at h; simp at h
      | ok a1 =>
        rw [hp] at h
        have hpush1 : env.push args w = Except.ok a1 := hp
        have hk1 : env.count a1 = 1 := by rw [hcount _ _ _ hpush1, h0]
        have hfmt : format_u32_base10 (env.count a1) = Nat.toDigits 10 1 := by
          rw [hk1]
          exact format_small (by omega)
        simp only [List.length_cons] at hlt ⊢
        obtain ⟨hc, ha⟩ := valuesLoop_placeholders hcount rest _ a1 r 1 hk1
          (by omega) h
        constructor
        · rw [hc, hfmt, specPlaceholders_eq_phTail]
          have e1 : (" $".data ++ Nat.toDigits 10 1 : List Char) = " $1".data :=
            rfl
          rw [← e1]
          simp only [Select.new]
          simp [List.append_assoc]
        · omega

/-- Claim C6 (witness): the chain `select(args).value(())?.value(())?`
over the counting collection renders `SELECT $1, $2` with final count
2. -/
theorem claim_C6_witness :
    (⟨"SELECT $1, $2".data, 2⟩ : PushValue Nat).command =
      "SELECT".data ++ specPlaceholders 2 ∧ envCount.count 2 = 2 :=
  (claim_C6 envCount 0
    (by intro a v a1 h; injection h with h; subst h; rfl) rfl).1
    () [()] ⟨"SELECT $1, $2".data, 2⟩ (by decide) rfl

/-- Claim C9: the command buffer is append-only: for every stage, every
public method call and every input, if the call succeeds then the command
text before the call is a prefix of the command text after it (every
transition of `src/select/mod.rs` either appends to the buffer or retags
it unchanged; none truncates or edits in place). -/
theorem claim_C9 {T E σ : Type} (env : Env T E σ) (st : Stage σ) (op : Op T)
    (st' : Stage σ) (h : step env st op = some (Except.ok st')) :
    ∃ u, stageCommand st' = stageCommand st ++ u := by
  cases st with
  | start s =>
    cases op with
    | column c =>
      simp only [step, Option.some.injEq] at h
      obtain ⟨x, hx, hst⟩ := except_map_ok h
      subst hst
      obtain ⟨hc, _⟩ := column_ok hx
      exact ⟨" ".data ++ c, by
        simp only [stageCommand]
        rw [hc]
        simp [List.append_assoc]⟩
    | column_as c al =>
      simp only [step, Option.some.injEq] at h
      obtain ⟨x, hx, hst⟩ := except_map_ok h
      subst hst
      obtain ⟨hc, _⟩ := column_as_ok hx
      exact ⟨" ".data ++ c ++ " AS ".data ++ al, by
        simp only [stageCommand]
        rw [hc]
        simp [List.append_assoc]⟩
    | columns cs =>
      simp only [step, Option.some.injEq] at h
      obtain ⟨x, hx, hst⟩ := except_map_ok h
      subst hst
      obtain ⟨first, rest, hcs, hc, _⟩ := columns_ok hx
      exact ⟨" ".data ++ first ++ (rest.map (fun c => ", ".data ++ c)).flatten,
        by
        simp only [stageCommand]
        rw [hc]
        simp [List.append_assoc]⟩
    | static_columns f =>
      simp only [step, Option.some.injEq] at h
      obtain ⟨x, hx, hst⟩ := except_map_ok h
      subst hst
      obtain ⟨hc, _⟩ := static_columns_ok hx
      exact ⟨" ".data ++ f.text, by
        simp only [stageCommand]
        rw [hc]
        simp [List.append_assoc]⟩
    | value v =>
      simp only [step, Option.some.injEq] at h
      obtain ⟨x, hx, hst⟩ := except_map_ok h
      subst hst
      obtain ⟨a1, _, hc, _⟩ := value_ok hx
      exact ⟨" $".data ++ format_u32_base10 (env.count a1), by
        simp only [stageCommand]
        rw [hc]
        simp [List.append_assoc]⟩
    | values vs =>
      simp only [step, Option.some.injEq] at h
      obtain ⟨x, hx, hst⟩ := except_map_ok h
      subst hst
      obtain ⟨u, hu⟩ := values_ok_append hx
      exact ⟨u, by simp only [stageCommand]; rw [hu]⟩
    | from_table t => simp [step] at h
    | static_from_tables t => simp [step] at h
    | from_ t => simp [step] at h
    | where_clause => simp [step] at h
    | end_ => simp [step] at h
  | pushValue s =>
    cases op with
    | value v =>
      simp only [step, Option.some.injEq] at h
      obtain ⟨x, hx, hst⟩ := except_map_ok h
      subst hst
      obtain ⟨a1, _, hc, _⟩ := push_value_ok hx
      exact ⟨", $".data ++ format_u32_base10 (env.count a1), by
        simp only [stageCommand]
        rw [hc]
        simp [List.append_assoc]⟩
    | end_ =>
      simp only [step, Option.some.injEq, Except.ok.injEq] at h
      subst h
      exact ⟨[], by simp [stageCommand, PushValue.end_]⟩
    | column c => simp [step] at h
    | column_as c al => simp [step] at h
    | columns cs => simp [step] at h
    | static_columns f => simp [step] at h
    | values vs => simp [step] at h
    | from_table t => simp [step] at h
    | static_from_tables t => simp [step] at h
    | from_ t => simp [step] at h
    | where_clause => simp [step] at h
  | pushColumn s =>
    cases op with
    | column c =>
      simp only [step, Option.some.injEq] at h
      obtain ⟨x, hx, hst⟩ := except_map_ok h
      subst hst
      obtain ⟨hc, _⟩ := push_column_ok hx
      exact ⟨", ".data ++ c, by
        simp only [stageCommand]
        rw [hc]
        simp [List.append_assoc]⟩
    | from_table t =>
      simp only [step, Option.some.injEq] at h
      obtain ⟨x, hx, hst⟩ := except_map_ok h
      subst hst
      obtain ⟨hc, _⟩ := from_table_ok hx
      exact ⟨" FROM ".data ++ t, by
        simp only [stageCommand]
        rw [hc]
        simp [List.append_assoc]⟩
    | static_from_tables tb =>
      simp only [step, Option.some.injEq] at h
      obtain ⟨x, hx, hst⟩ := except_map_ok h
      subst hst
      obtain ⟨hc, _⟩ := static_from_tables_ok hx
      exact ⟨" FROM ".data ++ tb.text, by
        simp only [stageCommand]
        rw [hc]
        simp [List.append_assoc]⟩
    | column_as c al => simp [step] at h
    | columns cs => simp [step] at h
    | static_columns f => simp [step] at h
    | value v => simp [step] at h
    | values vs => simp [step] at h
    | from_ t => simp [step] at h
    | where_clause => simp [step] at h
    | end_ => simp [step] at h
  | fromTable s =>
    cases op with
    | from_table t =>
      simp only [step, Option.some.injEq] at h
      obtain ⟨x, hx, hst⟩ := except_map_ok h
      subst hst
      obtain ⟨hc, _⟩ := from_table_ok hx
      exact ⟨" FROM ".data ++ t, by
        simp only [stageCommand]
        rw [hc]
        simp [List.append_assoc]⟩
    | static_from_tables tb =>
      simp only [step, Option.some.injEq] at h
      obtain ⟨x, hx, hst⟩ := except_map_ok h
      subst hst
      obtain ⟨hc, _⟩ := static_from_tables_ok hx
      exact ⟨" FROM ".data ++ tb.text, by
        simp only [stageCommand]
        rw [hc]
        simp [List.append_assoc]⟩
    | end_ =>
      simp only [step, Option.some.injEq, Except.ok.injEq] at h
      subst h
      exact ⟨[], by simp [stageCommand, FromTable.end_]⟩
    | column c => simp [step] at h
    | column_as c al => simp [step] at h
    | columns cs => simp [step] at h
    | static_columns f => simp [step] at h
    | value v => simp [step] at h
    | values vs => simp [step] at h
    | from_ t => simp [step] at h
    | where_clause => simp [step] at h
  | pushFromTable s =>
    cases op with
    | from_ t =>
      simp only [step, Option.some.injEq] at h
      obtain ⟨x, hx, hst⟩ := except_map_ok h
      subst hst
      obtain ⟨hc, _⟩ := push_from_ok hx
      exact ⟨", ".data ++ t, by
        simp only [stageCommand]
        rw [hc]
        simp [List.append_assoc]⟩
    | where_clause =>
      simp only [step, Option.some.injEq, Except.ok.injEq] at h
      subst h
      exact ⟨[], by simp [stageCommand, PushFromTable.where_clause]⟩
    | end_ =>
      simp only [step, Option.some.injEq, Except.ok.injEq] at h
      subst h
      exact ⟨[], by simp [stageCommand, PushFromTable.end_]⟩
    | column c => simp [step] at h
    | column_as c al => simp [step] at h
    | columns cs => simp [step] at h
    | static_columns f => simp [step] at h
    | value v => simp [step] at h
    | values vs => simp [step] at h
    | from_table t => simp [step] at h
    | static_from_tables tb => simp [step] at h
  | pushWhere s =>
    cases op with
    | end_ =>
      simp only [step, Option.some.injEq, Except.ok.injEq] at h
      subst h
      exact ⟨[], by simp [stageCommand, PushWhereClause.end_]⟩
    | column c => simp [step] at h
    | column_as c al => simp [step] at h
    | columns cs => simp [step] at h
    | static_columns f => simp [step] at h
    | value v => simp [step] at h
    | values vs => simp [step] at h
    | from_table t => simp [step] at h
    | static_from_tables tb => simp [step] at h
    | from_ t => simp [step] at h
    | where_clause => simp [step] at h
  | terminal s =>
    cases op <;> simp [step] at h

/-- Claim C9 (witness): one successful step at a concrete input: adding
column `a` from the start stage extends the buffer. -/
theorem claim_C9_witness :
    ∃ u, stageCommand (Stage.pushColumn (⟨"SELECT a".data, ()⟩ :
      PushColumn Unit)) = stageCommand (Stage.start (select ())) ++ u :=
  claim_C9 envUnit (Stage.start (select ())) (Op.column "a".data)
    (Stage.pushColumn ⟨"SELECT a".data, ()⟩) rfl
